import Mathlib

/-!
Verification development for the stash backend run-orchestration engine
(`stash_backend/orchestrator.py`).

Shallow embedding notes.
* The orchestrator's `_execute_run` coroutine suspends only at
  `await asyncio.to_thread(self.codex.execute, ...)` (one suspension per planned
  command); every stretch of code between two suspension points runs atomically
  with respect to the other coroutines on the event loop (`cancel_run` contains
  no await in its body, so it is a single atomic action).  We therefore model the
  saga as a sequence of atomic segments (`segA`, `segB`, `cancelHandler`) over an
  explicit system state `Sys`, with a program counter marking the suspension
  points, and arbitrary interleavings of saga resumption and `cancel_run` calls
  as lists of actions.
* Collaborators that are not part of the source tree (Planner, CodexExecutor,
  IndexingService, skill loading) are modelled by their spec contracts as
  components of `SagaEnv`: the planner is a function of the composed user
  message returning either a plan or an error, the executor returns an exit
  code/stdout result or raises one of the two handled error types
  (`CodexCommandError`, `RuntimeError`), and the RAG preparation either yields a
  hit list or raises.  The skill bundle is opaque to the orchestrator and is
  absorbed into the planner function.
* Repository writes (`update_run`, `add_event`, `create_run_step`,
  `finish_run_step`) become record/list updates of `Sys`; events are appended in
  program order.  Fields no claim observes (stdout/stderr excerpts, tool-role
  message bodies, timestamps) are not tracked.
* Python dictionaries for trigger messages and RAG hits are modelled as typed
  structures; string fields use `""` for Python-falsy/missing values, matching
  the `x or y` idiom in the source.  The `isinstance(parts, list)` guard in
  `_compose_planner_user_message` is always satisfied by the typed model (the
  repository only ever stores a list there) and is therefore not represented.
-/

/-- Run lifecycle states: `pending → running → {done, failed, cancelled}`. -/
inductive RunStatus
  | pending
  | running
  | done
  | failed
  | cancelled
deriving DecidableEq, Repr

/-- The observable fields of a run row that the claims mention. -/
structure RunRec where
  status : RunStatus
  outputSummary : Option String
  error : Option String
  finished : Bool
deriving DecidableEq, Repr

/-- A run step row: created with `status = none` before execution
(`create_run_step`), finalized by `finish_run_step` with `"completed"` or
`"failed"` and an optional error text. -/
structure StepRec where
  stepIndex : Nat
  status : Option String
  error : Option String
deriving DecidableEq, Repr

/-- Audit-trail events appended by the orchestrator, with the payload fields the
claims observe. -/
inductive Event
  | run_started
  | run_planned (commandCount ragHitCount : Nat)
  | run_step_started (stepIndex : Nat)
  | run_step_completed (stepIndex : Nat) (status : String)
  | message_finalized
  | run_failed_steps (failures : Nat)
  | run_failed_error (error : String)
  | run_completed (steps : Nat)
  | run_cancelled (reason : String)
deriving DecidableEq, Repr

/-- Outcome of one `codex.execute` call, per the CodexExecutor contract: either
a result with an exit code, or one of the two handled error types
(`CodexCommandError` / `RuntimeError`), caught at the step level. -/
inductive StepOutcome
  | ok (exitCode : Int)
  | stepErr (msg : String)
deriving DecidableEq, Repr

/-- One entry of a trigger message's `parts` list. -/
structure MsgPart where
  type : String
  path : String
  excerpt : String
deriving DecidableEq, Repr

/-- A trigger message as read back from the repository. -/
structure TriggerMsg where
  content : String
  parts : List MsgPart
deriving DecidableEq, Repr

/-- One RAG search hit; `""` models a missing/falsy string field. -/
structure RagHit where
  path_or_url : String
  title : String
  score : ℚ
  text : String
deriving DecidableEq, Repr

/-- One planned command (`{raw, cmd, cwd, worktree}`). -/
structure Command where
  raw : String
  cmd : String
  cwd : String
  worktree : String
deriving DecidableEq, Repr

/-- Planner output: narrative text plus the ordered command list. -/
structure Plan where
  planner_text : String
  commands : List Command
deriving DecidableEq, Repr

/-- Environment of one run: the collaborator behaviors the saga consumes.
`codex i` gives the outcome of the i-th planned command (1-based). -/
structure SagaEnv where
  trigger : Option TriggerMsg
  rag : Except Unit (List RagHit)
  planner : String → Except String Plan
  codex : Nat → StepOutcome

/-- Decimal rendering of `n < 1000` as exactly three digits, as produced for the
fractional part of Python's `f"{score:.3f}"`. -/
def pad3 (n : Nat) : String :=
  if n < 10 then "00" ++ toString n
  else if n < 100 then "0" ++ toString n
  else toString n

/-- Rendering of a score to three decimal places (`f"{score:.3f}"`). -/
def fmt3 (q : ℚ) : String :=
  let m : Nat := (round (|q| * 1000) : ℤ).toNat
  (if q < 0 then "-" else "") ++ toString (m / 1000) ++ "." ++ pad3 (m % 1000)

/-- Body of the file-context collection loop of
`_compose_planner_user_message` (orchestrator.py lines 44-54): skip parts of
another type and parts with neither path nor excerpt, render the rest as a
`File:` block capped at 5000 characters. -/
def fileBlockOf (part : MsgPart) : Option String :=
  if part.type ≠ "file_context" then none
  else
    let path := part.path.trim
    let excerpt := part.excerpt.trim
    if path = "" ∧ excerpt = "" then none
    else
      let block :=
        if excerpt ≠ "" then
          "File: " ++ (if path ≠ "" then path else "(unknown)") ++ "\n" ++ excerpt
        else
          "File: " ++ path
      some (block.take 5000)

/-- Body of the RAG rendering loop of `_compose_planner_user_message`
(orchestrator.py lines 66-72): path or title (else "(unknown)"), score to three
decimal places, excerpt normalized and capped at 800 characters with a
truncation marker. -/
def ragLineOf (hit : RagHit) : String :=
  let path :=
    if hit.path_or_url ≠ "" then hit.path_or_url
    else if hit.title ≠ "" then hit.title
    else "(unknown)"
  let excerpt := (hit.text.trim).replace "\r\n" "\n"
  let excerpt :=
    if 800 < excerpt.length then excerpt.take 800 ++ "... (truncated)"
    else excerpt
  "Path: " ++ path ++ "\nScore: " ++ fmt3 hit.score ++ "\nExcerpt:\n" ++ excerpt

/-- Translation of `RunOrchestrator._compose_planner_user_message`
(orchestrator.py lines 32-76). -/
def composePlannerUserMessage (msg : TriggerMsg) (ragHits : List RagHit) : String :=
  let content := msg.content.trim
  let fileBlocks := msg.parts.filterMap fileBlockOf
  let sections : List String := [content]
  let sections :=
    if fileBlocks ≠ [] then
      sections ++ ["[Mentioned file context]\n"
        ++ String.intercalate "\n\n" (fileBlocks.take 6)
        ++ "\n[/Mentioned file context]"]
    else sections
  let sections :=
    if ragHits ≠ [] then
      let ragLines := (ragHits.take 6).map ragLineOf
      if ragLines ≠ [] then
        sections ++ ["[Indexed context]\n"
          ++ String.intercalate "\n\n" ragLines
          ++ "\n[/Indexed context]"]
      else sections
    else sections
  (String.intercalate "\n\n" (sections.filter fun s => s != "")).trim

/-- Spec-side rendering of one file-context part as a "path-plus-excerpt block
capped at 5000 characters"; parts of another type and parts with neither path
nor excerpt contribute nothing. -/
def specFilePart (part : MsgPart) : Option String :=
  if part.type = "file_context" ∧ ¬(part.path.trim = "" ∧ part.excerpt.trim = "") then
    some ((if part.excerpt.trim ≠ "" then
            "File: " ++ (if part.path.trim ≠ "" then part.path.trim else "(unknown)")
              ++ "\n" ++ part.excerpt.trim
          else
            "File: " ++ part.path.trim).take 5000)
  else none

/-- Spec-side rendering of one RAG hit: its path or title, its score to three
decimal places, and its excerpt capped at 800 characters with a truncation
marker appended when cut. -/
def specRagLine (hit : RagHit) : String :=
  let path :=
    if hit.path_or_url ≠ "" then hit.path_or_url
    else if hit.title ≠ "" then hit.title
    else "(unknown)"
  let excerpt := (hit.text.trim).replace "\r\n" "\n"
  let excerpt :=
    if 800 < excerpt.length then excerpt.take 800 ++ "... (truncated)"
    else excerpt
  "Path: " ++ path ++ "\nScore: " ++ fmt3 hit.score ++ "\nExcerpt:\n" ++ excerpt

/-- The planner input as the claim describes it: the concatenation of the
trigger content, a delimited block of at most 6 file-context blocks when
present, and a delimited block of at most 6 rendered RAG hits when hits exist. -/
def plannerInputPerSpec (msg : TriggerMsg) (hits : List RagHit) : String :=
  let pieces : List String :=
    [msg.content.trim]
    ++ (match msg.parts.filterMap specFilePart with
        | [] => []
        | bs => ["[Mentioned file context]\n"
            ++ String.intercalate "\n\n" (bs.take 6)
            ++ "\n[/Mentioned file context]"])
    ++ (match hits with
        | [] => []
        | _ :: _ => ["[Indexed context]\n"
            ++ String.intercalate "\n\n" ((hits.take 6).map specRagLine)
            ++ "\n[/Indexed context]"])
  (String.intercalate "\n\n" (pieces.filter fun s => s != "")).trim

/-- Saga program counter: the suspension points of `_execute_run`.
`awaiting i` means the coroutine is suspended inside
`await asyncio.to_thread(self.codex.execute, ...)` for step `i`. -/
inductive Pc
  | notStarted
  | awaiting (i : Nat)
  | finishedTask
deriving DecidableEq, Repr

/-- System state for one run: the run row, its step rows, the event log, the
saga's local variables (`plan`, `failures`), the program counter, whether the
task handle is still in `self._tasks`, and whether `task.cancel()` was called. -/
structure Sys where
  run : RunRec
  steps : List StepRec
  events : List Event
  plan : Option Plan
  failures : Nat
  pc : Pc
  tracked : Bool
  cancelRequested : Bool
deriving DecidableEq, Repr

/-- State right after `start_run`: run created (initial `pending` state per
spec section 4.3), task scheduled and tracked, coroutine not yet started. -/
def initSys : Sys :=
  { run := { status := .pending, outputSummary := none, error := none, finished := false }
  , steps := []
  , events := []
  , plan := none
  , failures := 0
  , pc := .notStarted
  , tracked := true
  , cancelRequested := false }

/-- RAG hits actually used by the saga: `rag_hits` stays `[]` when the
`scan_project_files`/`search` block raises (orchestrator.py lines 141-150). -/
def ragHitsOf (env : SagaEnv) : List RagHit :=
  match env.rag with
  | .ok l => l
  | .error _ => []

/-- Step status written by `finish_run_step`:
`"completed" if result.exit_code == 0 else "failed"`, and `"failed"` for a
handled executor error. -/
def outcomeStatus : StepOutcome → String
  | .ok ec => if ec = 0 then "completed" else "failed"
  | .stepErr _ => "failed"

/-- Error text recorded on the step: only a handled executor error writes one. -/
def outcomeError : StepOutcome → Option String
  | .ok _ => none
  | .stepErr m => some m

/-- Contribution of one step to the run-level failure counter. -/
def outcomeFails : StepOutcome → Nat
  | .ok ec => if ec = 0 then 0 else 1
  | .stepErr _ => 1

/-- The finalized step row for step `i` under environment `env`. -/
def doneStep (env : SagaEnv) (i : Nat) : StepRec :=
  { stepIndex := i
  , status := some (outcomeStatus (env.codex i))
  , error := outcomeError (env.codex i) }

/-- Finalized rows for steps `i, i+1, ..., i+k`. -/
def doneStepsFrom (env : SagaEnv) (i : Nat) : Nat → List StepRec
  | 0 => [doneStep env i]
  | k + 1 => doneStep env i :: doneStepsFrom env (i + 1) k

/-- Failure-counter total over steps `i, i+1, ..., i+k`. -/
def failFrom (env : SagaEnv) (i : Nat) : Nat → Nat
  | 0 => outcomeFails (env.codex i)
  | k + 1 => outcomeFails (env.codex i) + failFrom env (i + 1) k

/-- All finalized step rows for a plan of `m` commands. -/
def allDoneSteps (env : SagaEnv) : Nat → List StepRec
  | 0 => []
  | m + 1 => doneStepsFrom env 1 m

/-- Failure-counter total for a plan of `m` commands. -/
def failTotal (env : SagaEnv) : Nat → Nat
  | 0 => 0
  | m + 1 => failFrom env 1 m

/-- Terminal run update of `_execute_run` lines 288-314: `failed` with
summary/error when the failure counter is nonzero, else `done`. -/
def applyFinal (r : RunRec) (m f : Nat) : RunRec :=
  if f ≠ 0 then
    { r with status := .failed
           , outputSummary := some (toString m ++ " step(s), " ++ toString f ++ " failed")
           , error := some "One or more run steps failed"
           , finished := true }
  else
    { r with status := .done
           , outputSummary := some (toString m ++ " step(s) executed")
           , finished := true }

/-- Terminal event of the normal finalization path. -/
def finEvent (m f : Nat) : Event :=
  if f ≠ 0 then .run_failed_steps f else .run_completed m

/-- The catch-all `except Exception` handler (lines 326-340) plus the `finally`
pop of the task handle: run `failed`, summary "Run crashed", error captured,
`run_failed{error}` appended. -/
def crashFinalize (msg : String) (σ : Sys) : Sys :=
  { σ with
    run := { σ.run with status := .failed
                      , outputSummary := some "Run crashed"
                      , error := some msg
                      , finished := true }
    events := σ.events ++ [Event.run_failed_error msg]
    pc := .finishedTask
    tracked := false }

/-- `create_run_step` + `run_step_started` event for step `i` (lines 183-200). -/
def createStep (i : Nat) (σ : Sys) : Sys :=
  { σ with steps := σ.steps ++ [{ stepIndex := i, status := none, error := none }]
         , events := σ.events ++ [Event.run_step_started i] }

/-- `finish_run_step`: finalize the step row with index `i`. -/
def finishStep (i : Nat) (st : String) (err : Option String) (σ : Sys) : Sys :=
  { σ with steps := σ.steps.map fun s =>
      if s.stepIndex = i then { s with status := some st, error := err } else s }

/-- Normal finalization (lines 272-314): final assistant message is persisted
and `message_finalized` emitted, then the run is closed out by failure count.
The `finally` block removes the task handle. -/
def normalFinalize (m : Nat) (σ : Sys) : Sys :=
  { σ with run := applyFinal σ.run m σ.failures
         , events := σ.events ++ [Event.message_finalized, finEvent m σ.failures]
         , pc := .finishedTask
         , tracked := false }

/-- First atomic segment of `_execute_run` (lines 130-200): everything from
coroutine start up to the first `await`, or all the way to return when the
saga crashes before the loop or the plan is empty. -/
def segA (env : SagaEnv) (σ : Sys) : Sys :=
  let σ := { σ with run := { σ.run with status := .running }
                  , events := σ.events ++ [Event.run_started] }
  match env.trigger with
  | none => crashFinalize "Trigger message not found" σ
  | some msg =>
    let hits := ragHitsOf env
    match env.planner (composePlannerUserMessage msg hits) with
    | .error e => crashFinalize e σ
    | .ok plan =>
      let σ := { σ with plan := some plan
                      , events := σ.events
                          ++ [Event.run_planned plan.commands.length hits.length] }
      if plan.commands.length = 0 then normalFinalize 0 σ
      else { createStep 1 σ with pc := .awaiting 1 }

/-- Atomic segment resuming from the `await` of step `i` (lines 202-266 plus,
for the last step, 268-314): record the step outcome, then either start
step `i+1` and suspend again, or finalize the run. -/
def segB (env : SagaEnv) (i : Nat) (σ : Sys) : Sys :=
  let out := env.codex i
  let σ := finishStep i (outcomeStatus out) (outcomeError out) σ
  let σ := { σ with events := σ.events ++ [Event.run_step_completed i (outcomeStatus out)]
                  , failures := σ.failures + outcomeFails out }
  let m := ((σ.plan.map fun p => p.commands.length).getD 0)
  if i < m then { createStep (i + 1) σ with pc := .awaiting (i + 1) }
  else normalFinalize m σ

/-- The `except asyncio.CancelledError` handler (lines 316-325) plus the
`finally` pop: run `cancelled`, `finished=true`, `run_cancelled{cancelled}`
appended, and the cancellation is re-raised (the task completes). -/
def cancelHandler (σ : Sys) : Sys :=
  { σ with run := { σ.run with status := .cancelled, finished := true }
         , events := σ.events ++ [Event.run_cancelled "cancelled"]
         , pc := .finishedTask
         , tracked := false }

/-- One scheduling of the saga coroutine.  A pending cancellation is delivered
at the resumption point; a task cancelled before it first runs never executes
its body (so the handler, and the `finally` pop, never run). -/
def sagaStep (env : SagaEnv) (σ : Sys) : Sys :=
  match σ.pc with
  | .notStarted => if σ.cancelRequested then { σ with pc := .finishedTask } else segA env σ
  | .awaiting i => if σ.cancelRequested then cancelHandler σ else segB env i σ
  | .finishedTask => σ

/-- Whether `cancel_run` sees an active task: a handle is still tracked in
`self._tasks` and `task.done()` is false. -/
def taskActive (σ : Sys) : Bool :=
  σ.tracked && !(σ.pc == Pc.finishedTask)

/-- The run-state effect of one `RunOrchestrator.cancel_run` call on an
existing run (lines 114-122): on an active task it requests cancellation,
transitions the run to `cancelled` under the lock and appends
`run_cancelled{user_request}`, returning the refreshed run; otherwise it
returns the run unchanged. -/
def cancel_run_step (σ : Sys) : Sys × Option RunRec :=
  if taskActive σ then
    let σ' := { σ with run := { σ.run with status := .cancelled, finished := true }
                     , events := σ.events ++ [Event.run_cancelled "user_request"]
                     , cancelRequested := true }
    (σ', some σ'.run)
  else (σ, some σ.run)

/-- Interleaved actions: a scheduling of the saga coroutine, or a
`cancel_run` call. -/
inductive Act
  | saga
  | cancel
deriving DecidableEq, Repr

/-- One action applied to the state. -/
def stepAct (env : SagaEnv) (σ : Sys) : Act → Sys
  | .saga => sagaStep env σ
  | .cancel => (cancel_run_step σ).1

/-- Run a schedule of actions. -/
def runActs (env : SagaEnv) (σ : Sys) (acts : List Act) : Sys :=
  acts.foldl (stepAct env) σ

/-- Iterate the saga scheduling `n` times (a schedule with no cancel calls). -/
def iterSaga (env : SagaEnv) : Nat → Sys → Sys
  | 0, σ => σ
  | n + 1, σ => iterSaga env n (sagaStep env σ)

/-- The plan the saga will obtain, as a function of the environment. -/
def planOf (env : SagaEnv) : Option Plan :=
  match env.trigger with
  | none => none
  | some msg => (env.planner (composePlannerUserMessage msg (ragHitsOf env))).toOption

/-- Enough saga schedulings to drive any run to completion. -/
def envFuel (env : SagaEnv) : Nat :=
  ((planOf env).map fun p => p.commands.length).getD 0 + 2

/-- The final state of an uncancelled run. -/
def runToCompletion (env : SagaEnv) : Sys :=
  iterSaga env (envFuel env) initSys

/-- Whether an event is a `run_cancelled` event. -/
def isCancelEvent : Event → Bool
  | .run_cancelled _ => true
  | _ => false

/-- Number of `run_cancelled` events in a log. -/
def cancelCount (es : List Event) : Nat :=
  (es.filter isCancelEvent).length

/-- Terminal run statuses. -/
def terminalStatus (s : RunStatus) : Prop :=
  s = .done ∨ s = .failed ∨ s = .cancelled

/-- State invariant tying cancellation bookkeeping to the run status: once
`task.cancel()` has been requested the run row already says `cancelled`, and a
live, uncancelled saga has only ever written a non-terminal status. -/
def SysInv (σ : Sys) : Prop :=
  (σ.cancelRequested = true → σ.run.status = .cancelled)
  ∧ (σ.pc ≠ .finishedTask → σ.cancelRequested = false →
      σ.run.status = .pending ∨ σ.run.status = .running)

/-- Modelled from the spec: `ProjectStore.get` (project_store.py is not in
src/); returns the loaded project context for a known id and an absent value
otherwise. -/
def storeGet (store : List String) (pid : String) : Option Unit :=
  if pid ∈ store then some () else none

/-- `RunOrchestrator.start_run` NotFound surface (lines 78-102): unknown
project raises `ValueError("Unknown project")`; otherwise the run is created in
its initial state and a background task is scheduled, and the new run record is
returned without waiting for execution. -/
def start_run (store : List String) (pid : String) : Except String (RunRec × Sys) :=
  match storeGet store pid with
  | none => Except.error "Unknown project"
  | some _ => Except.ok (initSys.run, initSys)

/-- `RunOrchestrator.cancel_run` surface (lines 104-122): unknown project or
unknown run returns an absent value; otherwise the behavior is
`cancel_run_step` on the tracked state. -/
def cancel_run (store : List String) (pid : String) (runFound : Bool) (σ : Sys) :
    Option RunRec :=
  match storeGet store pid with
  | none => none
  | some _ => if runFound then (cancel_run_step σ).2 else none

/-- Modelled from the spec: `ProjectRepository.create_message` sequence-number
assignment (db.py is not in src/); per spec section 4.2 it "assigns sequence_no
by reading the current maximum for the conversation and writing max+1 in the
same atomic unit as the insert", serialized by the project lock.  The state is
the list of sequence numbers already assigned in the conversation; the call
returns the new state and the assigned number. -/
def create_message (seqs : List Nat) : List Nat × Nat :=
  let n := seqs.foldr max 0 + 1
  (seqs ++ [n], n)

/-- Sequence numbers present after `k` lock-serialized `create_message` calls
on an initially empty conversation (concurrent callers are linearized by the
project lock, so every interleaving is one of these sequential histories). -/
def messagesAfter : Nat → List Nat
  | 0 => []
  | k + 1 => (create_message (messagesAfter k)).1

/-- A message row, as far as conversation deletion observes it. -/
structure MsgRow where
  id : Nat
  conversation_id : Nat
deriving DecidableEq, Repr

/-- A message-attachment row. -/
structure AttachmentRow where
  message_id : Nat
deriving DecidableEq, Repr

/-- A run row, as far as conversation deletion observes it. -/
structure RunRow where
  id : Nat
  conversation_id : Nat
deriving DecidableEq, Repr

/-- A run-step row keyed by its run. -/
structure StepRow where
  run_id : Nat
deriving DecidableEq, Repr

/-- A run-change-set row keyed by its run. -/
structure ChangeSetRow where
  run_id : Nat
deriving DecidableEq, Repr

/-- An event row with its optional conversation and run references. -/
structure EventRow where
  conversation_id : Option Nat
  run_id : Option Nat
deriving DecidableEq, Repr

/-- The per-project tables conversation deletion touches. -/
structure ProjectState where
  conversations : List Nat
  messages : List MsgRow
  attachments : List AttachmentRow
  runs : List RunRow
  run_steps : List StepRow
  change_sets : List ChangeSetRow
  events : List EventRow
  active_conversation : Option Nat
deriving DecidableEq, Repr

/-- Return payload of `delete_conversation`. -/
structure DeleteResult where
  conversation_id : Nat
  active_conversation_id : Option Nat
deriving DecidableEq, Repr

/-- Modelled from the spec: `ProjectRepository.delete_conversation` (db.py is
not in src/); per spec sections 3(b) and 4.2 it transactionally removes the
conversation's messages, message-attachments, runs, run-steps, run-change-sets,
and events referencing the conversation or its runs, reassigns the project's
active conversation to another existing conversation or clears it when the
deleted one was active, and returns `{conversation_id, active_conversation_id}`;
a nonexistent id yields an absent value with no side effects. -/
def delete_conversation (st : ProjectState) (cid : Nat) :
    Option DeleteResult × ProjectState :=
  if cid ∈ st.conversations then
    let delMsgIds := (st.messages.filter fun m => m.conversation_id == cid).map fun m => m.id
    let delRunIds := (st.runs.filter fun r => r.conversation_id == cid).map fun r => r.id
    let convs' := st.conversations.filter fun c => c != cid
    let newActive :=
      if st.active_conversation = some cid then convs'.head? else st.active_conversation
    ( some { conversation_id := cid, active_conversation_id := newActive }
    , { conversations := convs'
      , messages := st.messages.filter fun m => m.conversation_id != cid
      , attachments := st.attachments.filter fun a => !(delMsgIds.contains a.message_id)
      , runs := st.runs.filter fun r => r.conversation_id != cid
      , run_steps := st.run_steps.filter fun s => !(delRunIds.contains s.run_id)
      , change_sets := st.change_sets.filter fun c => !(delRunIds.contains c.run_id)
      , events := st.events.filter fun e =>
          !(e.conversation_id == some cid) &&
          !(match e.run_id with
            | some rid => delRunIds.contains rid
            | none => false)
      , active_conversation := newActive } )
  else (none, st)

/-- Fixture command for concrete runs. -/
def cmdFix (s : String) : Command := { raw := s, cmd := s, cwd := ".", worktree := "" }

/-- Fixture plan with one command. -/
def planOne : Plan := { planner_text := "p", commands := [cmdFix "a"] }

/-- Fixture plan with two commands. -/
def planTwo : Plan := { planner_text := "p", commands := [cmdFix "a", cmdFix "b"] }

/-- Fixture trigger message. -/
def msgFix : TriggerMsg := { content := "do it", parts := [] }

/-- Fixture environment whose trigger message is missing. -/
def envNoTrigger : SagaEnv :=
  { trigger := none, rag := Except.ok []
  , planner := fun _ => Except.ok planOne, codex := fun _ => .ok 0 }

/-- Fixture environment: one command exiting 0. -/
def envOneStep : SagaEnv :=
  { trigger := some msgFix, rag := Except.ok []
  , planner := fun _ => Except.ok planOne, codex := fun _ => .ok 0 }

/-- Fixture environment: two commands, first exits 0, second exits 1. -/
def envTwoSteps : SagaEnv :=
  { trigger := some msgFix, rag := Except.ok []
  , planner := fun _ => Except.ok planTwo
  , codex := fun i => if i = 1 then .ok 0 else .ok 1 }

/-- Fixture environment: two commands, the first failing with an executor
error, the second exiting 0. -/
def envStepErr : SagaEnv :=
  { trigger := some msgFix, rag := Except.ok []
  , planner := fun _ => Except.ok planTwo
  , codex := fun i => if i = 1 then .stepErr "boom" else .ok 0 }

/-- Fixture project state mirroring the conversation-delete unit test. -/
def exampleProject : ProjectState :=
  { conversations := [1, 2]
  , messages := [{ id := 10, conversation_id := 1 }]
  , attachments := [{ message_id := 10 }]
  , runs := [{ id := 100, conversation_id := 1 }]
  , run_steps := [{ run_id := 100 }]
  , change_sets := [{ run_id := 100 }]
  , events := [{ conversation_id := some 1, run_id := some 100 }]
  , active_conversation := some 1 }

theorem foldr_max_init (l : List Nat) (i : Nat) :
    l.foldr max i = max (l.foldr max 0) i := by
  induction l with
  | nil => simp
  | cons a t ih => simp [ih, Nat.max_assoc]

theorem range_map_foldr_max (k : Nat) :
    ((List.range k).map (fun n => n + 1)).foldr max 0 = k := by
  induction k with
  | zero => rfl
  | succ k ih =>
      rw [List.range_succ, List.map_append, List.foldr_append]
      simp only [List.map_cons, List.map_nil, List.foldr_cons, List.foldr_nil]
      rw [foldr_max_init, ih]
      omega

theorem messagesAfter_eq (k : Nat) :
    messagesAfter k = (List.range k).map (fun n => n + 1) := by
  induction k with
  | zero => rfl
  | succ k ih =>
      show (create_message (messagesAfter k)).1 = _
      rw [List.range_succ, List.map_append]
      simp only [create_message, ih, range_map_foldr_max, List.map_cons, List.map_nil]

/-- C3: for every conversation, the sequence numbers assigned by `k`
lock-serialized `create_message` calls (any interleaving of concurrent callers
is one such serialization) are exactly `1, 2, ..., k`: no duplicates, no gaps. -/
theorem sequence_numbers_exact_range (k : Nat) :
    messagesAfter k = (List.range k).map (fun n => n + 1)
    ∧ (messagesAfter k).Nodup
    ∧ (messagesAfter k).length = k
    ∧ ∀ n, n ∈ messagesAfter k ↔ (1 ≤ n ∧ n ≤ k) := by
  refine ⟨messagesAfter_eq k, ?_, ?_, ?_⟩ <;> rw [messagesAfter_eq k]
  · exact List.Nodup.map (fun a b h => by omega) (List.nodup_range k)
  · simp
  · intro n
    simp only [List.mem_map, List.mem_range]
    constructor
    · rintro ⟨m, hm, rfl⟩; omega
    · intro h; exact ⟨n - 1, by omega, by omega⟩

/-- C10: `start_run` on an unknown project raises `ValueError("Unknown
project")` while `cancel_run` on the same unknown project returns an absent
value without raising. -/
theorem notfound_surface_asymmetry (store : List String) (pid : String)
    (runFound : Bool) (σ : Sys) (h : storeGet store pid = none) :
    start_run store pid = Except.error "Unknown project"
    ∧ cancel_run store pid runFound σ = none := by
  constructor <;> simp [start_run, cancel_run, h]

theorem notfound_surface_asymmetry_witness :
    start_run [] "proj-missing" = Except.error "Unknown project"
    ∧ cancel_run [] "proj-missing" true initSys = none :=
  notfound_surface_asymmetry [] "proj-missing" true initSys (by rfl)

theorem sagaStep_of_finished (env : SagaEnv) (σ : Sys) (h : σ.pc = Pc.finishedTask) :
    sagaStep env σ = σ := by
  simp [sagaStep, h]

theorem iterSaga_of_finished (env : SagaEnv) (n : Nat) (σ : Sys)
    (h : σ.pc = Pc.finishedTask) : iterSaga env n σ = σ := by
  induction n with
  | zero => rfl
  | succ n ih => show iterSaga env n (sagaStep env σ) = σ; rw [sagaStep_of_finished env σ h, ih]

theorem iterSaga_succ_right (env : SagaEnv) (n : Nat) :
    ∀ σ, iterSaga env (n + 1) σ = sagaStep env (iterSaga env n σ) := by
  induction n with
  | zero => intro σ; rfl
  | succ n ih =>
      intro σ
      show iterSaga env (n + 1) (sagaStep env σ) = _
      rw [ih (sagaStep env σ)]
      rfl

/-- C6: a run whose trigger message does not exist crashes: terminal `failed`
with `output_summary = "Run crashed"` and a non-empty captured error, a
`run_failed` event carrying the error, and no run-steps created. -/
theorem missing_trigger_crashes_run (env : SagaEnv) (h : env.trigger = none) :
    (runToCompletion env).run
        = { status := RunStatus.failed, outputSummary := some "Run crashed"
          , error := some "Trigger message not found", finished := true }
    ∧ (runToCompletion env).steps = []
    ∧ (runToCompletion env).events
        = [Event.run_started, Event.run_failed_error "Trigger message not found"]
    ∧ "Trigger message not found" ≠ "" := by
  have hfuel : envFuel env = 2 := by simp [envFuel, planOf, h]
  have h2 : runToCompletion env = iterSaga env 2 initSys := by rw [runToCompletion, hfuel]
  have hseg : iterSaga env 2 initSys = segA env initSys := by
    show iterSaga env 1 (sagaStep env initSys) = _
    have : sagaStep env initSys = segA env initSys := by simp [sagaStep, initSys]
    rw [this, iterSaga_of_finished]
    simp [segA, initSys, h, crashFinalize]
  rw [h2, hseg]
  refine ⟨?_, ?_, ?_, by decide⟩ <;> simp [segA, initSys, h, crashFinalize]

theorem missing_trigger_crashes_run_witness :
    (runToCompletion envNoTrigger).run
        = { status := RunStatus.failed, outputSummary := some "Run crashed"
          , error := some "Trigger message not found", finished := true }
    ∧ (runToCompletion envNoTrigger).steps = [] :=
  ⟨(missing_trigger_crashes_run envNoTrigger rfl).1,
   (missing_trigger_crashes_run envNoTrigger rfl).2.1⟩

theorem sagaStep_env_congr (env₁ env₂ : SagaEnv)
    (ht : env₁.trigger = env₂.trigger)
    (hp : env₁.planner = env₂.planner)
    (hc : env₁.codex = env₂.codex)
    (hr : ragHitsOf env₁ = ragHitsOf env₂) (σ : Sys) :
    sagaStep env₁ σ = sagaStep env₂ σ := by
  cases hpc : σ.pc with
  | notStarted =>
      by_cases hcr : σ.cancelRequested = true
      · simp [sagaStep, hpc, hcr]
      · rw [Bool.not_eq_true] at hcr
        simp only [sagaStep, hpc, hcr, Bool.false_eq_true, if_false]
        simp only [segA, ht, hp, hr]
  | awaiting i =>
      by_cases hcr : σ.cancelRequested = true
      · simp [sagaStep, hpc, hcr]
      · rw [Bool.not_eq_true] at hcr
        simp only [sagaStep, hpc, hcr, Bool.false_eq_true, if_false]
        simp only [segB, hc]
  | finishedTask => simp [sagaStep, hpc]

theorem iterSaga_env_congr (env₁ env₂ : SagaEnv)
    (ht : env₁.trigger = env₂.trigger)
    (hp : env₁.planner = env₂.planner)
    (hc : env₁.codex = env₂.codex)
    (hr : ragHitsOf env₁ = ragHitsOf env₂) (n : Nat) :
    ∀ σ, iterSaga env₁ n σ = iterSaga env₂ n σ := by
  induction n with
  | zero => intro σ; rfl
  | succ n ih =>
      intro σ
      show iterSaga env₁ n (sagaStep env₁ σ) = iterSaga env₂ n (sagaStep env₂ σ)
      rw [sagaStep_env_congr env₁ env₂ ht hp hc hr σ, ih (sagaStep env₂ σ)]

theorem runToCompletion_env_congr (env₁ env₂ : SagaEnv)
    (ht : env₁.trigger = env₂.trigger)
    (hp : env₁.planner = env₂.planner)
    (hc : env₁.codex = env₂.codex)
    (hr : ragHitsOf env₁ = ragHitsOf env₂) :
    runToCompletion env₁ = runToCompletion env₂ := by
  have hfuel : envFuel env₁ = envFuel env₂ := by
    simp only [envFuel, planOf, ht, hp, hr]
  rw [runToCompletion, runToCompletion, hfuel,
    iterSaga_env_congr env₁ env₂ ht hp hc hr (envFuel env₂) initSys]

/-- C5: an exception during RAG preparation is caught and the saga proceeds
exactly as it would with zero RAG hits; in particular the run is never marked
failed because of that exception and the remainder of the saga is unaffected. -/
theorem rag_failure_degrades_to_zero_hits (env : SagaEnv) :
    runToCompletion { env with rag := Except.error () }
      = runToCompletion { env with rag := Except.ok [] } := by
  apply runToCompletion_env_congr <;> rfl

theorem fileBlockOf_eq_spec (part : MsgPart) : fileBlockOf part = specFilePart part := by
  simp only [fileBlockOf, specFilePart]
  by_cases h1 : part.type = "file_context"
  · by_cases h2 : part.path.trim = "" ∧ part.excerpt.trim = ""
    · simp [h1, h2]
    · simp [h1, h2]
  · simp [h1]

theorem ragLineOf_eq_spec : ragLineOf = specRagLine := rfl

/-- C8: the composed planner input is exactly the concatenation the claim
describes: trigger content, then (when file-context blocks exist) a delimited
block of at most 6 path-plus-excerpt blocks each capped at 5000 characters,
then (when RAG hits exist) a delimited block of at most 6 hits rendered with
path/title, score to 3 decimal places, and an 800-character-capped excerpt. -/
theorem planner_input_matches_spec (msg : TriggerMsg) (hits : List RagHit) :
    composePlannerUserMessage msg hits = plannerInputPerSpec msg hits := by
  have hfb : msg.parts.filterMap fileBlockOf = msg.parts.filterMap specFilePart := by
    congr 1
    funext part
    exact fileBlockOf_eq_spec part
  simp only [composePlannerUserMessage, plannerInputPerSpec, hfb, ragLineOf_eq_spec]
  rcases hbs : msg.parts.filterMap specFilePart with _ | ⟨b, bs⟩ <;>
    rcases hts : hits with _ | ⟨h, t⟩ <;>
      simp [List.take_succ_cons]

theorem finishStep_eq (i : Nat) (st : String) (err : Option String)
    (S : List StepRec) (σ : Sys)
    (hsteps : σ.steps = S ++ [{ stepIndex := i, status := none, error := none }])
    (hS : ∀ s ∈ S, s.stepIndex ≠ i) :
    finishStep i st err σ
      = { σ with steps := S ++ [{ stepIndex := i, status := some st, error := err }] } := by
  unfold finishStep
  rw [hsteps]
  congr 1
  rw [List.map_append]
  congr 1
  · conv_rhs => rw [show S = S.map id from (List.map_id S).symm]
    apply List.map_congr_left
    intro s hs
    simp [hS s hs]
  · simp

theorem segB_eq (env : SagaEnv) (plan : Plan) (i : Nat) (S : List StepRec) (σ : Sys)
    (hplan : σ.plan = some plan)
    (hsteps : σ.steps = S ++ [{ stepIndex := i, status := none, error := none }])
    (hS : ∀ s ∈ S, s.stepIndex ≠ i) :
    segB env i σ =
      if i < plan.commands.length then
        { σ with
          steps := (S ++ [doneStep env i])
            ++ [{ stepIndex := i + 1, status := none, error := none }]
        , events := σ.events
            ++ [Event.run_step_completed i (outcomeStatus (env.codex i)),
                Event.run_step_started (i + 1)]
        , failures := σ.failures + outcomeFails (env.codex i)
        , pc := Pc.awaiting (i + 1) }
      else
        { σ with
          run := applyFinal σ.run plan.commands.length
                   (σ.failures + outcomeFails (env.codex i))
        , steps := S ++ [doneStep env i]
        , events := σ.events
            ++ [Event.run_step_completed i (outcomeStatus (env.codex i)),
                Event.message_finalized,
                finEvent plan.commands.length (σ.failures + outcomeFails (env.codex i))]
        , failures := σ.failures + outcomeFails (env.codex i)
        , pc := Pc.finishedTask
        , tracked := false } := by
  have hfin := finishStep_eq i (outcomeStatus (env.codex i)) (outcomeError (env.codex i)) S σ hsteps hS
  simp only [segB, hfin]
  have hplan2 : ((({ σ with
      steps := S ++ [{ stepIndex := i, status := some (outcomeStatus (env.codex i))
                     , error := outcomeError (env.codex i) }] } : Sys).plan.map
        fun p => p.commands.length).getD 0) = plan.commands.length := by
    simp [hplan]
  rw [hplan2]
  by_cases hlt : i < plan.commands.length
  · rw [if_pos hlt, if_pos hlt]
    simp [createStep, doneStep, List.append_assoc]
  · rw [if_neg hlt, if_neg hlt]
    simp [normalFinalize, doneStep, List.append_assoc]

theorem iter_await (env : SagaEnv) (plan : Plan) :
    ∀ (k i : Nat) (S : List StepRec) (σ : Sys),
      σ.pc = Pc.awaiting i →
      σ.cancelRequested = false →
      σ.plan = some plan →
      1 ≤ i →
      i + k = plan.commands.length →
      σ.steps = S ++ [{ stepIndex := i, status := none, error := none }] →
      (∀ s ∈ S, s.stepIndex < i) →
      ∃ T : List Event,
        iterSaga env (k + 1) σ =
          { run := applyFinal σ.run plan.commands.length (σ.failures + failFrom env i k)
          , steps := S ++ doneStepsFrom env i k
          , events := σ.events ++ T
              ++ [Event.message_finalized,
                  finEvent plan.commands.length (σ.failures + failFrom env i k)]
          , plan := some plan
          , failures := σ.failures + failFrom env i k
          , pc := Pc.finishedTask
          , tracked := false
          , cancelRequested := false } := by
  intro k
  induction k with
  | zero =>
      intro i S σ hpc hcr hplan hi hm hsteps hS
      have hnotlt : ¬ i < plan.commands.length := by omega
      have hstep : sagaStep env σ = segB env i σ := by
        simp [sagaStep, hpc, hcr]
      have hseg := segB_eq env plan i S σ hplan hsteps (fun s hs => Nat.ne_of_lt (hS s hs))
      rw [if_neg hnotlt] at hseg
      refine ⟨[Event.run_step_completed i (outcomeStatus (env.codex i))], ?_⟩
      show iterSaga env 0 (sagaStep env σ) = _
      rw [show iterSaga env 0 (sagaStep env σ) = sagaStep env σ from rfl, hstep, hseg]
      simp [failFrom, doneStepsFrom, hcr, hplan, List.append_assoc]
  | succ k ih =>
      intro i S σ hpc hcr hplan hi hm hsteps hS
      have hlt : i < plan.commands.length := by omega
      have hstep : sagaStep env σ = segB env i σ := by
        simp [sagaStep, hpc, hcr]
      have hseg := segB_eq env plan i S σ hplan hsteps (fun s hs => Nat.ne_of_lt (hS s hs))
      rw [if_pos hlt] at hseg
      have hstep2 : iterSaga env (k + 1 + 1) σ = iterSaga env (k + 1) (segB env i σ) := by
        show iterSaga env (k + 1) (sagaStep env σ) = _
        rw [hstep]
      obtain ⟨T, hT⟩ := ih (i + 1) (S ++ [doneStep env i]) (segB env i σ)
        (by rw [hseg]) (by rw [hseg]; exact hcr) (by rw [hseg]; exact hplan)
        (by omega) (by omega)
        (by rw [hseg])
        (by
          intro s hs
          rcases List.mem_append.1 hs with h | h
          · exact Nat.lt_trans (hS s h) (Nat.lt_succ_self i)
          · rcases List.mem_singleton.1 h with rfl
            exact Nat.lt_succ_self i)
      refine ⟨Event.run_step_completed i (outcomeStatus (env.codex i))
          :: Event.run_step_started (i + 1) :: T, ?_⟩
      rw [hstep2, hT, hseg]
      have hfail : failFrom env i (k + 1)
          = outcomeFails (env.codex i) + failFrom env (i + 1) k := rfl
      have hdone : doneStepsFrom env i (k + 1)
          = doneStep env i :: doneStepsFrom env (i + 1) k := rfl
      simp [hfail, hdone, Nat.add_assoc, List.append_assoc]

theorem runToCompletion_char (env : SagaEnv) (msg : TriggerMsg) (plan : Plan)
    (htr : env.trigger = some msg)
    (hpl : env.planner (composePlannerUserMessage msg (ragHitsOf env)) = Except.ok plan) :
    ∃ T : List Event,
      runToCompletion env =
        { run := applyFinal
                   { status := RunStatus.running, outputSummary := none
                   , error := none, finished := false }
                   plan.commands.length (failTotal env plan.commands.length)
        , steps := allDoneSteps env plan.commands.length
        , events := [Event.run_started,
                     Event.run_planned plan.commands.length (ragHitsOf env).length]
            ++ T ++ [Event.message_finalized,
                     finEvent plan.commands.length (failTotal env plan.commands.length)]
        , plan := some plan
        , failures := failTotal env plan.commands.length
        , pc := Pc.finishedTask
        , tracked := false
        , cancelRequested := false } := by
  have hplanOf : planOf env = some plan := by
    simp [planOf, htr, hpl, Except.toOption]
  have hfuel : envFuel env = plan.commands.length + 2 := by
    simp [envFuel, hplanOf]
  have hstart : runToCompletion env
      = iterSaga env (plan.commands.length + 1) (segA env initSys) := by
    rw [runToCompletion, hfuel]
    show iterSaga env (plan.commands.length + 1) (sagaStep env initSys) = _
    have : sagaStep env initSys = segA env initSys := by simp [sagaStep, initSys]
    rw [this]
  rcases hmlen : plan.commands.length with _ | k
  · -- empty plan: segA finalizes directly
    have hsegA : segA env initSys = normalFinalize 0
        { run := { status := RunStatus.running, outputSummary := none
                 , error := none, finished := false }
        , steps := [], events := [Event.run_started, Event.run_planned 0 (ragHitsOf env).length]
        , plan := some plan, failures := 0, pc := Pc.notStarted
        , tracked := true, cancelRequested := false } := by
      simp [segA, initSys, htr, hpl, hmlen]
    refine ⟨[], ?_⟩
    rw [hstart, hmlen, hsegA]
    have hfin : (normalFinalize 0
        { run := { status := RunStatus.running, outputSummary := none
                 , error := none, finished := false }
        , steps := [], events := [Event.run_started, Event.run_planned 0 (ragHitsOf env).length]
        , plan := some plan, failures := 0, pc := Pc.notStarted
        , tracked := true, cancelRequested := false } : Sys).pc = Pc.finishedTask := by
      simp [normalFinalize]
    rw [iterSaga_of_finished env (0 + 1) _ hfin]
    simp [normalFinalize, allDoneSteps, failTotal]
  · -- nonempty plan: segA creates step 1 and suspends; then apply iter_await
    have hsegA : segA env initSys =
        { run := { status := RunStatus.running, outputSummary := none
                 , error := none, finished := false }
        , steps := [{ stepIndex := 1, status := none, error := none }]
        , events := [Event.run_started,
                     Event.run_planned plan.commands.length (ragHitsOf env).length,
                     Event.run_step_started 1]
        , plan := some plan, failures := 0, pc := Pc.awaiting 1
        , tracked := true, cancelRequested := false } := by
      simp [segA, initSys, htr, hpl, hmlen, createStep]
    obtain ⟨T, hT⟩ := iter_await env plan k 1 []
      { run := { status := RunStatus.running, outputSummary := none
               , error := none, finished := false }
      , steps := [{ stepIndex := 1, status := none, error := none }]
      , events := [Event.run_started,
                   Event.run_planned plan.commands.length (ragHitsOf env).length,
                   Event.run_step_started 1]
      , plan := some plan, failures := 0, pc := Pc.awaiting 1
      , tracked := true, cancelRequested := false }
      rfl rfl rfl (Nat.le_refl 1) (by omega) (by simp) (by simp)
    rw [hstart, hmlen] at *
    have hsplit : iterSaga env (k + 1 + 1) (segA env initSys)
        = sagaStep env (iterSaga env (k + 1) (segA env initSys)) :=
      iterSaga_succ_right env (k + 1) (segA env initSys)
    rw [hsplit, hsegA, hT]
    rw [sagaStep_of_finished env _ rfl]
    refine ⟨Event.run_step_started 1 :: T, ?_⟩
    simp [allDoneSteps, failTotal, hmlen, List.append_assoc]

/-- C1: a saga that reaches finalization with `n` planned commands and `f`
failed steps ends `failed` with `output_summary = "<n> step(s), <f> failed"`,
`error = "One or more run steps failed"`, `finished=true` and an appended
`run_failed{failures=f}` event when `f > 0`, and otherwise ends `done` with
`output_summary = "<n> step(s) executed"`, `finished=true` and an appended
`run_completed{steps=n}` event. -/
theorem run_finalization_summary (env : SagaEnv) (msg : TriggerMsg) (plan : Plan)
    (htr : env.trigger = some msg)
    (hpl : env.planner (composePlannerUserMessage msg (ragHitsOf env)) = Except.ok plan) :
    (0 < failTotal env plan.commands.length →
       (runToCompletion env).run.status = RunStatus.failed
       ∧ (runToCompletion env).run.outputSummary
           = some (toString plan.commands.length ++ " step(s), "
               ++ toString (failTotal env plan.commands.length) ++ " failed")
       ∧ (runToCompletion env).run.error = some "One or more run steps failed"
       ∧ (runToCompletion env).run.finished = true
       ∧ ∃ T, (runToCompletion env).events
           = T ++ [Event.run_failed_steps (failTotal env plan.commands.length)])
    ∧ (failTotal env plan.commands.length = 0 →
       (runToCompletion env).run.status = RunStatus.done
       ∧ (runToCompletion env).run.outputSummary
           = some (toString plan.commands.length ++ " step(s) executed")
       ∧ (runToCompletion env).run.finished = true
       ∧ ∃ T, (runToCompletion env).events
           = T ++ [Event.run_completed plan.commands.length]) := by
  obtain ⟨T, hT⟩ := runToCompletion_char env msg plan htr hpl
  rw [hT]
  constructor
  · intro hf
    have hne : failTotal env plan.commands.length ≠ 0 := Nat.pos_iff_ne_zero.mp hf
    refine ⟨by simp [applyFinal, hne], by simp [applyFinal, hne],
      by simp [applyFinal, hne], by simp [applyFinal, hne],
      ⟨[Event.run_started,
        Event.run_planned plan.commands.length (ragHitsOf env).length]
         ++ T ++ [Event.message_finalized],
       by simp [finEvent, hne, List.append_assoc]⟩⟩
  · intro h0
    refine ⟨by simp [applyFinal, h0], by simp [applyFinal, h0],
      by simp [applyFinal, h0],
      ⟨[Event.run_started,
        Event.run_planned plan.commands.length (ragHitsOf env).length]
         ++ T ++ [Event.message_finalized],
       by simp [finEvent, h0, List.append_assoc]⟩⟩

theorem run_finalization_summary_witness :
    (runToCompletion envTwoSteps).run.status = RunStatus.failed
    ∧ (runToCompletion envTwoSteps).run.outputSummary = some "2 step(s), 1 failed"
    ∧ (runToCompletion envTwoSteps).run.finished = true := by
  have h := (run_finalization_summary envTwoSteps msgFix planTwo rfl rfl).1 (by decide)
  refine ⟨h.1, ?_, h.2.2.2.1⟩
  rw [h.2.1]
  rfl

theorem mem_doneStepsFrom (env : SagaEnv) :
    ∀ (k a j : Nat), a ≤ j → j ≤ a + k → doneStep env j ∈ doneStepsFrom env a k := by
  intro k
  induction k with
  | zero =>
      intro a j h1 h2
      have : j = a := by omega
      subst this
      simp [doneStepsFrom]
  | succ k ih =>
      intro a j h1 h2
      rw [doneStepsFrom]
      rcases Nat.eq_or_lt_of_le h1 with rfl | hlt
      · exact List.mem_cons_self _ _
      · exact List.mem_cons_of_mem _ (ih (a + 1) j hlt (by omega))

theorem failFrom_ge (env : SagaEnv) :
    ∀ (k a j : Nat), a ≤ j → j ≤ a + k →
      outcomeFails (env.codex j) ≤ failFrom env a k := by
  intro k
  induction k with
  | zero =>
      intro a j h1 h2
      have : j = a := by omega
      subst this
      simp [failFrom]
  | succ k ih =>
      intro a j h1 h2
      rw [failFrom]
      rcases Nat.eq_or_lt_of_le h1 with rfl | hlt
      · exact Nat.le_add_right _ _
      · exact Nat.le_trans (ih (a + 1) j hlt (by omega)) (Nat.le_add_left _ _)

theorem outcomeStatus_of_fail (o : StepOutcome) (h : outcomeFails o = 1) :
    outcomeStatus o = "failed" := by
  cases o with
  | ok ec =>
      by_cases hec : ec = 0
      · simp [outcomeFails, hec] at h
      · simp [outcomeStatus, hec]
  | stepErr m => rfl

/-- C7: when step `i` of an `m`-command plan fails (executor error or nonzero
exit code), the saga still creates and finalizes run-steps for every command
`1..m` in plan order; the failing step is the only one marked failed for that
failure, the run-level failure counter counts it, and the remaining planned
commands are not aborted. -/
theorem step_failure_does_not_abort (env : SagaEnv) (msg : TriggerMsg) (plan : Plan)
    (i : Nat) (htr : env.trigger = some msg)
    (hpl : env.planner (composePlannerUserMessage msg (ragHitsOf env)) = Except.ok plan)
    (hi1 : 1 ≤ i) (him : i ≤ plan.commands.length)
    (hfail : outcomeFails (env.codex i) = 1) :
    (runToCompletion env).steps = allDoneSteps env plan.commands.length
    ∧ (∀ j, 1 ≤ j → j ≤ plan.commands.length →
        ({ stepIndex := j, status := some (outcomeStatus (env.codex j))
         , error := outcomeError (env.codex j) } : StepRec) ∈ (runToCompletion env).steps)
    ∧ ({ stepIndex := i, status := some "failed"
       , error := outcomeError (env.codex i) } : StepRec) ∈ (runToCompletion env).steps
    ∧ 1 ≤ (runToCompletion env).failures := by
  obtain ⟨T, hT⟩ := runToCompletion_char env msg plan htr hpl
  have hsteps : (runToCompletion env).steps = allDoneSteps env plan.commands.length := by
    rw [hT]
  have hfails : (runToCompletion env).failures = failTotal env plan.commands.length := by
    rw [hT]
  obtain ⟨k, hk⟩ : ∃ k, plan.commands.length = k + 1 :=
    ⟨plan.commands.length - 1, by omega⟩
  have hmem : ∀ j, 1 ≤ j → j ≤ plan.commands.length →
      ({ stepIndex := j, status := some (outcomeStatus (env.codex j))
       , error := outcomeError (env.codex j) } : StepRec) ∈ (runToCompletion env).steps := by
    intro j h1 h2
    rw [hsteps, hk]
    show doneStep env j ∈ allDoneSteps env (k + 1)
    rw [allDoneSteps]
    exact mem_doneStepsFrom env k 1 j h1 (by omega)
  refine ⟨hsteps, hmem, ?_, ?_⟩
  · have := hmem i hi1 him
    rwa [outcomeStatus_of_fail (env.codex i) hfail] at this
  · rw [hfails, hk, failTotal]
    calc 1 = outcomeFails (env.codex i) := hfail.symm
    _ ≤ failFrom env 1 k := failFrom_ge env k 1 i hi1 (by omega)

theorem step_failure_does_not_abort_witness :
    ({ stepIndex := 1, status := some "failed", error := some "boom" } : StepRec)
        ∈ (runToCompletion envStepErr).steps
    ∧ ({ stepIndex := 2, status := some "completed", error := none } : StepRec)
        ∈ (runToCompletion envStepErr).steps
    ∧ 1 ≤ (runToCompletion envStepErr).failures := by
  have h := step_failure_does_not_abort envStepErr msgFix planTwo 1 rfl rfl
    (by decide) (by decide) (by decide)
  exact ⟨h.2.2.1, h.2.1 2 (by decide) (by decide), h.2.2.2⟩



theorem segA_eq_noTrigger (env : SagaEnv) (σ : Sys) (h : env.trigger = none) :
    segA env σ = crashFinalize "Trigger message not found"
      { σ with run := { σ.run with status := RunStatus.running }
             , events := σ.events ++ [Event.run_started] } := by
  simp [segA, h]

theorem segA_eq_plannerErr (env : SagaEnv) (σ : Sys) (msg : TriggerMsg) (e : String)
    (htr : env.trigger = some msg)
    (hp : env.planner (composePlannerUserMessage msg (ragHitsOf env)) = Except.error e) :
    segA env σ = crashFinalize e
      { σ with run := { σ.run with status := RunStatus.running }
             , events := σ.events ++ [Event.run_started] } := by
  simp [segA, htr, hp]

theorem segA_eq_emptyPlan (env : SagaEnv) (σ : Sys) (msg : TriggerMsg) (plan : Plan)
    (htr : env.trigger = some msg)
    (hp : env.planner (composePlannerUserMessage msg (ragHitsOf env)) = Except.ok plan)
    (hz : plan.commands.length = 0) :
    segA env σ = normalFinalize 0
      { σ with run := { σ.run with status := RunStatus.running }
             , events := σ.events
                 ++ [Event.run_started,
                     Event.run_planned plan.commands.length (ragHitsOf env).length]
             , plan := some plan } := by
  simp [segA, htr, hp, hz, List.append_assoc]

theorem segA_eq_somePlan (env : SagaEnv) (σ : Sys) (msg : TriggerMsg) (plan : Plan)
    (htr : env.trigger = some msg)
    (hp : env.planner (composePlannerUserMessage msg (ragHitsOf env)) = Except.ok plan)
    (hz : plan.commands.length ≠ 0) :
    segA env σ =
      { createStep 1
          { σ with run := { σ.run with status := RunStatus.running }
                 , events := σ.events
                     ++ [Event.run_started,
                         Event.run_planned plan.commands.length (ragHitsOf env).length]
                 , plan := some plan }
        with pc := Pc.awaiting 1 } := by
  simp [segA, htr, hp, hz, List.append_assoc]

theorem segA_props (env : SagaEnv) (σ : Sys) :
    (segA env σ).cancelRequested = σ.cancelRequested
    ∧ ((segA env σ).pc = Pc.finishedTask
        ∨ ((segA env σ).pc = Pc.awaiting 1
           ∧ (segA env σ).run.status = RunStatus.running))
    ∧ ((segA env σ).run.finished = σ.run.finished ∨ (segA env σ).run.finished = true)
    ∧ (∃ t, (segA env σ).events = σ.events ++ t) := by
  rcases htr : env.trigger with _ | msg
  · rw [segA_eq_noTrigger env σ htr]
    exact ⟨by simp [crashFinalize], Or.inl (by simp [crashFinalize]),
      Or.inr (by simp [crashFinalize]),
      ⟨[Event.run_started, Event.run_failed_error "Trigger message not found"],
       by simp [crashFinalize, List.append_assoc]⟩⟩
  · rcases hp : env.planner (composePlannerUserMessage msg (ragHitsOf env)) with e | plan
    · rw [segA_eq_plannerErr env σ msg e htr hp]
      exact ⟨by simp [crashFinalize], Or.inl (by simp [crashFinalize]),
        Or.inr (by simp [crashFinalize]),
        ⟨[Event.run_started, Event.run_failed_error e],
         by simp [crashFinalize, List.append_assoc]⟩⟩
    · by_cases hz : plan.commands.length = 0
      · rw [segA_eq_emptyPlan env σ msg plan htr hp hz]
        refine ⟨by simp [normalFinalize], Or.inl (by simp [normalFinalize]), Or.inr ?_,
          ⟨[Event.run_started,
            Event.run_planned plan.commands.length (ragHitsOf env).length,
            Event.message_finalized, finEvent 0 σ.failures],
           by simp [normalFinalize, List.append_assoc]⟩⟩
        simp only [normalFinalize, applyFinal]
        split_ifs <;> rfl
      · rw [segA_eq_somePlan env σ msg plan htr hp hz]
        exact ⟨by simp [createStep], Or.inr ⟨by simp [createStep], by simp [createStep]⟩,
          Or.inl (by simp [createStep]),
          ⟨[Event.run_started,
            Event.run_planned plan.commands.length (ragHitsOf env).length,
            Event.run_step_started 1],
           by simp [createStep, List.append_assoc]⟩⟩

theorem segB_eq_lt (env : SagaEnv) (i : Nat) (σ : Sys)
    (h : i < (Option.map (fun p => p.commands.length) σ.plan).getD 0) :
    segB env i σ =
      { σ with
        steps := (finishStep i (outcomeStatus (env.codex i)) (outcomeError (env.codex i)) σ).steps
          ++ [{ stepIndex := i + 1, status := none, error := none }]
      , events := σ.events ++ [Event.run_step_completed i (outcomeStatus (env.codex i)),
          Event.run_step_started (i + 1)]
      , failures := σ.failures + outcomeFails (env.codex i)
      , pc := Pc.awaiting (i + 1) } := by
  simp [segB, createStep, finishStep, h, List.append_assoc]

theorem segB_eq_ge (env : SagaEnv) (i : Nat) (σ : Sys)
    (h : ¬ i < (Option.map (fun p => p.commands.length) σ.plan).getD 0) :
    segB env i σ =
      { σ with
        run := applyFinal σ.run ((Option.map (fun p => p.commands.length) σ.plan).getD 0)
                 (σ.failures + outcomeFails (env.codex i))
      , steps := (finishStep i (outcomeStatus (env.codex i)) (outcomeError (env.codex i)) σ).steps
      , events := σ.events ++ [Event.run_step_completed i (outcomeStatus (env.codex i)),
          Event.message_finalized,
          finEvent ((Option.map (fun p => p.commands.length) σ.plan).getD 0)
            (σ.failures + outcomeFails (env.codex i))]
      , failures := σ.failures + outcomeFails (env.codex i)
      , pc := Pc.finishedTask
      , tracked := false } := by
  simp [segB, normalFinalize, finishStep, h, List.append_assoc]

theorem segB_props (env : SagaEnv) (i : Nat) (σ : Sys) :
    (segB env i σ).cancelRequested = σ.cancelRequested
    ∧ ((segB env i σ).pc = Pc.finishedTask
        ∨ ((segB env i σ).pc = Pc.awaiting (i + 1) ∧ (segB env i σ).run = σ.run))
    ∧ ((segB env i σ).run.finished = σ.run.finished ∨ (segB env i σ).run.finished = true)
    ∧ (∃ t, (segB env i σ).events = σ.events ++ t) := by
  by_cases h : i < (Option.map (fun p => p.commands.length) σ.plan).getD 0
  · rw [segB_eq_lt env i σ h]
    exact ⟨rfl, Or.inr ⟨rfl, rfl⟩, Or.inl rfl,
      ⟨[Event.run_step_completed i (outcomeStatus (env.codex i)),
        Event.run_step_started (i + 1)], rfl⟩⟩
  · rw [segB_eq_ge env i σ h]
    refine ⟨rfl, Or.inl rfl, Or.inr ?_,
      ⟨[Event.run_step_completed i (outcomeStatus (env.codex i)),
        Event.message_finalized,
        finEvent ((Option.map (fun p => p.commands.length) σ.plan).getD 0)
          (σ.failures + outcomeFails (env.codex i))], rfl⟩⟩
    simp only [applyFinal]
    split_ifs <;> rfl

theorem stepAct_inv_frozen (env : SagaEnv) (σ : Sys) (a : Act) (hinv : SysInv σ) :
    SysInv (stepAct env σ a)
    ∧ (terminalStatus σ.run.status → (stepAct env σ a).run.status = σ.run.status)
    ∧ (σ.run.finished = true → (stepAct env σ a).run.finished = true)
    ∧ (∃ t, (stepAct env σ a).events = σ.events ++ t) := by
  obtain ⟨hinv1, hinv2⟩ := hinv
  cases a with
  | cancel =>
      by_cases hact : taskActive σ = true
      · have hpc' : σ.pc ≠ Pc.finishedTask := by
          intro h
          rw [taskActive, h] at hact
          simp at hact
        have hσ' : stepAct env σ Act.cancel
            = { σ with run := { σ.run with status := RunStatus.cancelled, finished := true }
                     , events := σ.events ++ [Event.run_cancelled "user_request"]
                     , cancelRequested := true } := by
          simp [stepAct, cancel_run_step, hact]
        rw [hσ']
        refine ⟨⟨fun _ => rfl, fun _ hcf => by simp at hcf⟩, ?_, fun _ => rfl,
          ⟨[Event.run_cancelled "user_request"], rfl⟩⟩
        intro hterm
        cases hcr : σ.cancelRequested with
        | true => rw [hinv1 hcr]
        | false =>
            rcases hinv2 hpc' hcr with hst | hst <;>
              rw [hst] at hterm <;> rcases hterm with h | h | h <;> simp at h
      · have hact' : taskActive σ = false := by
          cases h : taskActive σ
          · rfl
          · exact absurd h hact
        have hσ' : stepAct env σ Act.cancel = σ := by
          simp [stepAct, cancel_run_step, hact']
        rw [hσ']
        exact ⟨⟨hinv1, hinv2⟩, fun _ => rfl, fun h => h, ⟨[], by simp⟩⟩
  | saga =>
      cases hpc : σ.pc with
      | finishedTask =>
          have hσ' : stepAct env σ Act.saga = σ := by
            simp [stepAct, sagaStep, hpc]
          rw [hσ']
          exact ⟨⟨hinv1, hinv2⟩, fun _ => rfl, fun h => h, ⟨[], by simp⟩⟩
      | notStarted =>
          by_cases hcr : σ.cancelRequested = true
          · have hσ' : stepAct env σ Act.saga = { σ with pc := Pc.finishedTask } := by
              simp [stepAct, sagaStep, hpc, hcr]
            rw [hσ']
            exact ⟨⟨hinv1, fun hne _ => absurd rfl hne⟩, fun _ => rfl, fun h => h,
              ⟨[], by simp⟩⟩
          · have hcr' : σ.cancelRequested = false := by
              cases h : σ.cancelRequested
              · rfl
              · exact absurd h hcr
            have hσ' : stepAct env σ Act.saga = segA env σ := by
              simp [stepAct, sagaStep, hpc, hcr']
            rw [hσ']
            obtain ⟨hA1, hA2, hA3, hA4⟩ := segA_props env σ
            refine ⟨⟨?_, ?_⟩, ?_, ?_, hA4⟩
            · intro hc
              rw [hA1, hcr'] at hc
              simp at hc
            · intro hne _
              rcases hA2 with h | ⟨_, hst⟩
              · exact absurd h hne
              · exact Or.inr hst
            · intro hterm
              rcases hinv2 (by rw [hpc]; intro h; cases h) hcr' with hst | hst <;>
                rw [hst] at hterm <;> rcases hterm with h | h | h <;> simp at h
            · intro hf
              rcases hA3 with h | h
              · rw [h, hf]
              · exact h
      | awaiting i =>
          by_cases hcr : σ.cancelRequested = true
          · have hσ' : stepAct env σ Act.saga = cancelHandler σ := by
              simp [stepAct, sagaStep, hpc, hcr]
            rw [hσ']
            refine ⟨⟨fun _ => by simp [cancelHandler],
                fun hne _ => absurd (by simp [cancelHandler]) hne⟩,
              ?_, fun _ => by simp [cancelHandler],
              ⟨[Event.run_cancelled "cancelled"], by simp [cancelHandler]⟩⟩
            intro _
            rw [show (cancelHandler σ).run.status = RunStatus.cancelled from by
              simp [cancelHandler], hinv1 hcr]
          · have hcr' : σ.cancelRequested = false := by
              cases h : σ.cancelRequested
              · rfl
              · exact absurd h hcr
            have hσ' : stepAct env σ Act.saga = segB env i σ := by
              simp [stepAct, sagaStep, hpc, hcr']
            rw [hσ']
            obtain ⟨hB1, hB2, hB3, hB4⟩ := segB_props env i σ
            refine ⟨⟨?_, ?_⟩, ?_, ?_, hB4⟩
            · intro hc
              rw [hB1, hcr'] at hc
              simp at hc
            · intro hne _
              rcases hB2 with h | ⟨_, hrun⟩
              · exact absurd h hne
              · rw [hrun]
                exact hinv2 (by rw [hpc]; intro h; cases h) hcr'
            · intro hterm
              rcases hinv2 (by rw [hpc]; intro h; cases h) hcr' with hst | hst <;>
                rw [hst] at hterm <;> rcases hterm with h | h | h <;> simp at h
            · intro hf
              rcases hB3 with h | h
              · rw [h, hf]
              · exact h

theorem runActs_props (env : SagaEnv) (acts : List Act) :
    ∀ σ, SysInv σ →
      SysInv (runActs env σ acts)
      ∧ (terminalStatus σ.run.status → (runActs env σ acts).run.status = σ.run.status)
      ∧ (σ.run.finished = true → (runActs env σ acts).run.finished = true)
      ∧ (∃ t, (runActs env σ acts).events = σ.events ++ t) := by
  induction acts with
  | nil => exact fun σ h => ⟨h, fun _ => rfl, fun h => h, ⟨[], by simp [runActs]⟩⟩
  | cons a l ih =>
      intro σ h
      have hfold : runActs env σ (a :: l) = runActs env (stepAct env σ a) l := rfl
      obtain ⟨h1, h2, h3, h4⟩ := stepAct_inv_frozen env σ a h
      obtain ⟨g1, g2, g3, g4⟩ := ih (stepAct env σ a) h1
      rw [hfold]
      refine ⟨g1, ?_, fun hf => g3 (h3 hf), ?_⟩
      · intro hterm
        have hs := h2 hterm
        rw [g2 (by rw [hs]; exact hterm), hs]
      · obtain ⟨t1, ht1⟩ := h4
        obtain ⟨t2, ht2⟩ := g4
        exact ⟨t1 ++ t2, by rw [ht2, ht1, List.append_assoc]⟩

theorem initSys_inv : SysInv initSys := by
  constructor
  · intro h
    simp [initSys] at h
  · intro _ _
    left
    rfl

/-- C4: once a run's status is terminal (`done`, `failed`, or `cancelled`), no
subsequent interleaving of saga resumptions and `cancel_run` calls ever changes
its status again. -/
theorem terminal_status_frozen (env : SagaEnv) (acts more : List Act)
    (h : terminalStatus (runActs env initSys acts).run.status) :
    (runActs env (runActs env initSys acts) more).run.status
      = (runActs env initSys acts).run.status :=
  (runActs_props env more (runActs env initSys acts)
    (runActs_props env acts initSys initSys_inv).1).2.1 h

theorem terminal_status_frozen_witness :
    terminalStatus (runActs envNoTrigger initSys [Act.saga]).run.status
    ∧ (runActs envNoTrigger (runActs envNoTrigger initSys [Act.saga])
        [Act.cancel, Act.saga]).run.status
      = (runActs envNoTrigger initSys [Act.saga]).run.status :=
  ⟨Or.inr (Or.inl (by decide)),
   terminal_status_frozen envNoTrigger [Act.saga] [Act.cancel, Act.saga]
     (Or.inr (Or.inl (by decide)))⟩

theorem cancelCount_append (a b : List Event) :
    cancelCount (a ++ b) = cancelCount a + cancelCount b := by
  simp [cancelCount, List.filter_append]

/-- C2 counterexample: with a one-command plan, calling `cancel_run` while the
saga task is suspended in the step `await` leaves TWO `run_cancelled` events on
the run — one appended by `cancel_run` itself (reason `user_request`) and a
second appended by the saga's `asyncio.CancelledError` handler (reason
`cancelled`) — so "in total exactly one run_cancelled event" is false. -/
theorem cancel_run_two_events_cex :
    taskActive (runActs envOneStep initSys [Act.saga]) = true
    ∧ cancelCount (runActs envOneStep initSys [Act.saga, Act.cancel, Act.saga]).events = 2
    ∧ cancelCount (runActs envOneStep initSys [Act.saga, Act.cancel, Act.saga]).events ≠ 1 := by
  refine ⟨?_, ?_, ?_⟩ <;> decide

/-- C2 (amended): `cancel_run` on an existing run with no tracked or an
already-completed task returns the run's current record unmodified; on an
active task it requests cancellation of the task, transitions the run under
the lock to `cancelled` with `finished=true` (which persists), and AT LEAST
one `run_cancelled` event is recorded for the run — the one appended by
`cancel_run`; the saga's cancellation handler may append a second
`run_cancelled` event when the cancelled task had already begun executing. -/
theorem cancel_run_behavior_amended (env : SagaEnv) (pre post : List Act) :
    (taskActive (runActs env initSys pre) = false →
       cancel_run_step (runActs env initSys pre)
         = (runActs env initSys pre, some (runActs env initSys pre).run))
    ∧ (taskActive (runActs env initSys pre) = true →
       (runActs env (stepAct env (runActs env initSys pre) Act.cancel) post).run.status
           = RunStatus.cancelled
       ∧ (runActs env (stepAct env (runActs env initSys pre) Act.cancel) post).run.finished
           = true
       ∧ (stepAct env (runActs env initSys pre) Act.cancel).cancelRequested = true
       ∧ 1 ≤ cancelCount
           (runActs env (stepAct env (runActs env initSys pre) Act.cancel) post).events) := by
  constructor
  · intro h
    simp [cancel_run_step, h]
  · intro hact
    have hinv0 : SysInv (runActs env initSys pre) :=
      (runActs_props env pre initSys initSys_inv).1
    have hσ' : stepAct env (runActs env initSys pre) Act.cancel
        = { runActs env initSys pre with
            run := { (runActs env initSys pre).run with
                     status := RunStatus.cancelled, finished := true }
          , events := (runActs env initSys pre).events
              ++ [Event.run_cancelled "user_request"]
          , cancelRequested := true } := by
      simp [stepAct, cancel_run_step, hact]
    obtain ⟨hinv', hfr, hfin, hev⟩ := runActs_props env post
      (stepAct env (runActs env initSys pre) Act.cancel)
      (stepAct_inv_frozen env (runActs env initSys pre) Act.cancel hinv0).1
    refine ⟨?_, ?_, ?_, ?_⟩
    · rw [hfr (by rw [hσ']; right; right; rfl), hσ']
    · exact hfin (by rw [hσ'])
    · rw [hσ']
    · obtain ⟨t, ht⟩ := hev
      rw [ht, hσ', cancelCount_append, cancelCount_append]
      have h1 : cancelCount [Event.run_cancelled "user_request"] = 1 := by decide
      omega

theorem cancel_run_behavior_amended_witness :
    (runActs envOneStep (stepAct envOneStep (runActs envOneStep initSys [Act.saga]) Act.cancel)
        [Act.saga]).run.status = RunStatus.cancelled
    ∧ 1 ≤ cancelCount (runActs envOneStep
        (stepAct envOneStep (runActs envOneStep initSys [Act.saga]) Act.cancel)
        [Act.saga]).events := by
  have h := (cancel_run_behavior_amended envOneStep [Act.saga] [Act.saga]).2 (by decide)
  exact ⟨h.1, h.2.2.2⟩

/-- C9: deleting an existing conversation removes all of its messages,
message-attachments, runs, run-steps, run-change-sets, and events referencing
it or its runs, reassigns the project's active conversation to another
existing conversation (or clears it) when the deleted conversation was active,
and returns `{conversation_id, active_conversation_id}`; deleting a
nonexistent conversation returns an absent value with no side effects. -/
theorem delete_conversation_spec (st : ProjectState) (cid : Nat) :
    (cid ∉ st.conversations → delete_conversation st cid = (none, st))
    ∧ (cid ∈ st.conversations →
        (delete_conversation st cid).1
            = some { conversation_id := cid
                   , active_conversation_id :=
                       (delete_conversation st cid).2.active_conversation }
        ∧ cid ∉ (delete_conversation st cid).2.conversations
        ∧ (∀ m ∈ (delete_conversation st cid).2.messages, m.conversation_id ≠ cid)
        ∧ (∀ a ∈ (delete_conversation st cid).2.attachments,
            ∀ m ∈ st.messages, m.conversation_id = cid → a.message_id ≠ m.id)
        ∧ (∀ r ∈ (delete_conversation st cid).2.runs, r.conversation_id ≠ cid)
        ∧ (∀ s ∈ (delete_conversation st cid).2.run_steps,
            ∀ r ∈ st.runs, r.conversation_id = cid → s.run_id ≠ r.id)
        ∧ (∀ c ∈ (delete_conversation st cid).2.change_sets,
            ∀ r ∈ st.runs, r.conversation_id = cid → c.run_id ≠ r.id)
        ∧ (∀ e ∈ (delete_conversation st cid).2.events,
            e.conversation_id ≠ some cid
            ∧ ∀ r ∈ st.runs, r.conversation_id = cid → e.run_id ≠ some r.id)
        ∧ (st.active_conversation = some cid →
            ((delete_conversation st cid).2.active_conversation = none
                ∧ (delete_conversation st cid).2.conversations = [])
            ∨ (∃ c ∈ (delete_conversation st cid).2.conversations,
                (delete_conversation st cid).2.active_conversation = some c))
        ∧ (st.active_conversation ≠ some cid →
            (delete_conversation st cid).2.active_conversation
              = st.active_conversation)) := by
  constructor
  · intro h
    simp [delete_conversation, h]
  · intro h
    refine ⟨?_, ?_, ?_, ?_, ?_, ?_, ?_, ?_, ?_, ?_⟩
    · simp only [delete_conversation, if_pos h]
    · intro hmem
      simp only [delete_conversation, if_pos h] at hmem
      rw [List.mem_filter] at hmem
      simp at hmem
    · intro m hm
      simp only [delete_conversation, if_pos h] at hm
      rw [List.mem_filter] at hm
      simpa using hm.2
    · intro a ha m hm hmc heq
      simp only [delete_conversation, if_pos h] at ha
      rw [List.mem_filter] at ha
      have hin : a.message_id
          ∈ (List.filter (fun m => m.conversation_id == cid) st.messages).map
              (fun m => m.id) := by
        rw [heq]
        exact List.mem_map_of_mem _ (List.mem_filter.mpr ⟨hm, by simp [hmc]⟩)
      have hf := ha.2
      simp only [Bool.not_eq_true'] at hf
      simp [hin] at hf
    · intro r hr
      simp only [delete_conversation, if_pos h] at hr
      rw [List.mem_filter] at hr
      simpa using hr.2
    · intro s hs r hr hrc heq
      simp only [delete_conversation, if_pos h] at hs
      rw [List.mem_filter] at hs
      have hin : s.run_id
          ∈ (List.filter (fun r => r.conversation_id == cid) st.runs).map
              (fun r => r.id) := by
        rw [heq]
        exact List.mem_map_of_mem _ (List.mem_filter.mpr ⟨hr, by simp [hrc]⟩)
      have hf := hs.2
      simp only [Bool.not_eq_true'] at hf
      simp [hin] at hf
    · intro c hc r hr hrc heq
      simp only [delete_conversation, if_pos h] at hc
      rw [List.mem_filter] at hc
      have hin : c.run_id
          ∈ (List.filter (fun r => r.conversation_id == cid) st.runs).map
              (fun r => r.id) := by
        rw [heq]
        exact List.mem_map_of_mem _ (List.mem_filter.mpr ⟨hr, by simp [hrc]⟩)
      have hf := hc.2
      simp only [Bool.not_eq_true'] at hf
      simp [hin] at hf
    · intro e he
      simp only [delete_conversation, if_pos h] at he
      rw [List.mem_filter] at he
      have hcond := he.2
      rw [Bool.and_eq_true] at hcond
      constructor
      · have hf := hcond.1
        simp only [Bool.not_eq_true'] at hf
        simpa using hf
      · intro r hr hrc heq
        have hf := hcond.2
        rw [heq] at hf
        simp only [Bool.not_eq_true'] at hf
        have hin : r.id
            ∈ (List.filter (fun r => r.conversation_id == cid) st.runs).map
                (fun r => r.id) :=
          List.mem_map_of_mem _ (List.mem_filter.mpr ⟨hr, by simp [hrc]⟩)
        simp [hin] at hf
    · intro hac
      simp only [delete_conversation, if_pos h, if_pos hac]
      rcases List.filter (fun c => c != cid) st.conversations with _ | ⟨c, rest⟩
      · exact Or.inl ⟨rfl, rfl⟩
      · exact Or.inr ⟨c, List.mem_cons_self c rest, rfl⟩
    · intro hac
      simp only [delete_conversation, if_pos h, if_neg hac]

theorem delete_conversation_spec_witness :
    (delete_conversation exampleProject 1).1
        = some { conversation_id := 1
               , active_conversation_id :=
                   (delete_conversation exampleProject 1).2.active_conversation }
    ∧ 1 ∉ (delete_conversation exampleProject 1).2.conversations := by
  have h := (delete_conversation_spec exampleProject 1).2 (by decide)
  exact ⟨h.1, h.2.1⟩
